import Mathlib

/-!
Shallow embedding of `coff_nm`'s single plugin script
(`binaryninja/dbg_load/__init__.py`).

The script registers a Binary Ninja plugin command `load_dbg_file` which
  1. prompts for a debug file (may be cancelled),
  2. runs the external tool `dbgparse` on it and decodes stdout,
  3. splits the output into lines,
  4. matches each line against the regex `^([FGS]) ([0-9a-f]{8}) (.*)$`
     (an unmatched line raises, aborting the command),
  5. computes `addr = bv.start + int(addr, 16)`,
  6. demangles the name via `demangle.demangle_ms(bv.arch, name)`, joining a
     list result with `"::"`,
  7. dispatches on the tag: `F` creates a user function and defines a
     `FunctionSymbol` (also setting the function type when the demangler
     returned one), `G` defines a `DataSymbol`, `S` sets a comment.

The host (Binary Ninja) is modelled by recording every mutating API call as
an `Event` in a trace; the demangling service, which is external to the
repository, is a parameter `dm` of the embedding (`none` models an exception
escaping the call).  Lines and names are Lean `String`s, addresses are exact
naturals (Python integers are unbounded, so no wrap-around occurs in the
script itself).
-/

namespace CoffNm

/-- The two `binaryninja.SymbolType` values the script uses. -/
inductive SymbolType where
  | FunctionSymbol
  | DataSymbol
deriving DecidableEq, Repr

/-- The name component of `demangle_ms`'s result: the Python value is either a
flat `str` or a `list` of `str` components. -/
inductive MangledName where
  | flat (s : String)
  | parts (l : List String)
deriving DecidableEq, Repr

/-- A mutating host-API call made by the script, recorded as a trace event.
`T` is the (host-owned, otherwise opaque) type of function-type descriptors
returned by the demangler. -/
inductive Event (T : Type) where
  | runSubprocess (path : String)
  | createUserFunction (addr : Nat)
  | defineUserSymbol (sym : SymbolType) (addr : Nat) (shortName : String) (rawName : String)
  | setFunctionType (addr : Nat) (ty : T)
  | setCommentAt (addr : Nat) (text : String)

/-- Model of the host demangling service `demangle.demangle_ms(bv.arch, ·)`
with `bv.arch` already applied: `none` models an exception escaping the call,
`some (mangle_typ, mangle_name)` its normal return value. -/
def Demangler (T : Type) : Type := String → Option (Option T × MangledName)

/-- Characters accepted by the regex character class `[FGS]`. -/
def isTagChar (c : Char) : Bool := c = 'F' || c = 'G' || c = 'S'

/-- Characters accepted by the regex character class `[0-9a-f]`. -/
def isHexLower (c : Char) : Bool := ('0' ≤ c && c ≤ '9') || ('a' ≤ c && c ≤ 'f')

/-- Value of a `[0-9a-f]` digit, as `int(·, 16)` interprets it. -/
def hexDigitVal (c : Char) : Nat :=
  if '0' ≤ c && c ≤ '9' then c.toNat - '0'.toNat
  else c.toNat - 'a'.toNat + 10

/-- Python `int(s, 16)` on a string of hex digits: most-significant first. -/
def hexToNat (s : String) : Nat :=
  s.data.foldl (fun a c => 16 * a + hexDigitVal c) 0

/-- In Python regex semantics (no `re.MULTILINE`), `$` also matches just
before a single trailing `'\n'`; this drops that newline if present. -/
def stripFinalNewline (cs : List Char) : List Char :=
  match cs.reverse with
  | '\n' :: rest => rest.reverse
  | _ => cs

/-- `re.compile("^([FGS]) ([0-9a-f]{8}) (.*)$").match(line)`, returning the
three captured groups on success.  The pattern is rigid: one tag character, a
space, exactly eight lowercase hex digits, a space, and the greedy `(.*)`
(which cannot cross a `'\n'`; `$` may sit before one final `'\n'`). -/
def rexMatch (s : String) : Option (String × String × String) :=
  match s.data with
  | t :: sp :: cs =>
    if isTagChar t && sp = ' ' then
      let ad := cs.take 8
      if ad.length == 8 && ad.all isHexLower then
        match cs.drop 8 with
        | sp2 :: nm =>
          if sp2 = ' ' then
            let nm2 := stripFinalNewline nm
            if nm2.all (fun c => c ≠ '\n') then
              some (String.mk [t], String.mk ad, String.mk nm2)
            else none
          else none
        | _ => none
      else none
    else none
  | _ => none

/-- Line-boundary characters of Python `str.splitlines`. -/
def isLineBreakChar (c : Char) : Bool :=
  c = '\n' || c = '\r' || c = '\x0b' || c = '\x0c' ||
  c = '\x1c' || c = '\x1d' || c = '\x1e' || c = '\x85' ||
  c = '\u2028' || c = '\u2029'

/-- Worker for `splitlines`: `acc` holds the current line reversed. -/
def splitlinesAux : List Char → List Char → List String
  | [], acc => if acc.isEmpty then [] else [String.mk acc.reverse]
  | '\r' :: '\n' :: cs2, acc => String.mk acc.reverse :: splitlinesAux cs2 []
  | c :: cs, acc =>
    if isLineBreakChar c then
      String.mk acc.reverse :: splitlinesAux cs []
    else
      splitlinesAux cs (c :: acc)

/-- Python `str.splitlines()` (`\r\n` counts as one boundary, a trailing
boundary produces no empty final line). -/
def splitlines (s : String) : List String := splitlinesAux s.data []

/-- The body of the `for line in output.splitlines():` loop for one `line`:
the list of host calls it performs, or `none` when the iteration raises
(`rex.match(line)` returned `None`, or `demangle_ms` raised). -/
def processLine {T : Type} (dm : Demangler T) (base : Nat) (line : String) :
    Option (List (Event T)) :=
  match rexMatch line with
  | none => none
  | some (typ, addrStr, name) =>
    let addr := base + hexToNat addrStr
    match dm name with
    | none => none
    | some (mangle_typ, mn) =>
      let mangle_name :=
        match mn with
        | MangledName.parts l => String.intercalate "::" l
        | MangledName.flat s => s
      if typ = "F" then
        some ([Event.createUserFunction addr,
               Event.defineUserSymbol SymbolType.FunctionSymbol addr mangle_name name] ++
              (match mangle_typ with
               | some ty => [Event.setFunctionType addr ty]
               | none => []))
      else if typ = "G" then
        some [Event.defineUserSymbol SymbolType.DataSymbol addr mangle_name name]
      else if typ = "S" then
        some [Event.setCommentAt addr name]
      else
        some []

/-- The whole `for` loop: the trace of host calls, paired with `true` when
every line was processed and `false` when an iteration raised (calls made by
earlier iterations have already taken effect and stay in the trace). -/
def processLines {T : Type} (dm : Demangler T) (base : Nat) :
    List String → List (Event T) × Bool
  | [] => ([], true)
  | l :: ls =>
    match processLine dm base l with
    | none => ([], false)
    | some evs =>
      let r := processLines dm base ls
      (evs ++ r.1, r.2)

/-- The plugin command `load_dbg_file`.  `dbg_file` is the dialog's result
(`none` = cancelled; Python's `if dbg_file:` also skips the empty string),
`dbgparse` maps the chosen path to the external tool's decoded stdout. -/
def load_dbg_file {T : Type} (dm : Demangler T) (base : Nat)
    (dbg_file : Option String) (dbgparse : String → String) :
    List (Event T) × Bool :=
  match dbg_file with
  | none => ([], true)
  | some path =>
    if path = "" then ([], true)
    else
      let r := processLines dm base (splitlines (dbgparse path))
      (Event.runSubprocess path :: r.1, r.2)

/-- Is this event a `create_user_function` call? -/
def isCreateEvent {T : Type} : Event T → Bool
  | Event.createUserFunction _ => true
  | _ => false

/-- Is this event a `define_user_symbol` call? -/
def isDefineEvent {T : Type} : Event T → Bool
  | Event.defineUserSymbol _ _ _ _ => true
  | _ => false

/-- Is this event a `define_user_symbol` call of the given symbol kind? -/
def isDefineKindEvent {T : Type} (k : SymbolType) : Event T → Bool
  | Event.defineUserSymbol k2 _ _ _ => k2 = k
  | _ => false

/-- Is this event a `function_type` assignment? -/
def isSetTypeEvent {T : Type} : Event T → Bool
  | Event.setFunctionType _ _ => true
  | _ => false

/-- Is this event a `set_comment_at` call? -/
def isCommentEvent {T : Type} : Event T → Bool
  | Event.setCommentAt _ _ => true
  | _ => false

/-- The address argument of a host call (`none` for the subprocess spawn,
which takes no address). -/
def addrOf {T : Type} : Event T → Option Nat
  | Event.runSubprocess _ => none
  | Event.createUserFunction a => some a
  | Event.defineUserSymbol _ a _ _ => some a
  | Event.setFunctionType a _ => some a
  | Event.setCommentAt a _ => some a

/-! ## Unfolding lemmas for `processLine` -/

/-- On an `F` line with a successful demangle, the loop body performs exactly
the create/define(/set-type) calls of the `typ == "F"` branch. -/
theorem processLine_F {T : Type} (dm : Demangler T) (base : Nat)
    (line a n : String) (mty : Option T) (mn : MangledName)
    (hm : rexMatch line = some ("F", a, n)) (hd : dm n = some (mty, mn)) :
    processLine dm base line =
      some ([Event.createUserFunction (base + hexToNat a),
             Event.defineUserSymbol SymbolType.FunctionSymbol (base + hexToNat a)
               (match mn with
                | MangledName.parts l => String.intercalate "::" l
                | MangledName.flat s => s) n] ++
            (match mty with
             | some ty => [Event.setFunctionType (base + hexToNat a) ty]
             | none => [])) := by
  unfold processLine
  rw [hm]
  dsimp only
  simp only [hd]
  cases mn <;> simp

/-- On a `G` line with a successful demangle, the loop body performs exactly
the single `define_user_symbol` call of the `typ == "G"` branch. -/
theorem processLine_G {T : Type} (dm : Demangler T) (base : Nat)
    (line a n : String) (mty : Option T) (mn : MangledName)
    (hm : rexMatch line = some ("G", a, n)) (hd : dm n = some (mty, mn)) :
    processLine dm base line =
      some [Event.defineUserSymbol SymbolType.DataSymbol (base + hexToNat a)
              (match mn with
               | MangledName.parts l => String.intercalate "::" l
               | MangledName.flat s => s) n] := by
  unfold processLine
  rw [hm]
  dsimp only
  simp only [hd]
  cases mn <;> simp

/-- On an `S` line with a successful demangle, the loop body performs exactly
the single `set_comment_at` call of the `typ == "S"` branch. -/
theorem processLine_S {T : Type} (dm : Demangler T) (base : Nat)
    (line a n : String) (mty : Option T) (mn : MangledName)
    (hm : rexMatch line = some ("S", a, n)) (hd : dm n = some (mty, mn)) :
    processLine dm base line = some [Event.setCommentAt (base + hexToNat a) n] := by
  unfold processLine
  rw [hm]
  dsimp only
  simp only [hd]
  cases mn <;> simp

/-- An unmatched line makes the loop body raise (`.groups()` on `None`). -/
theorem processLine_rexFail {T : Type} (dm : Demangler T) (base : Nat) (l : String)
    (hl : rexMatch l = none) : processLine dm base l = none := by
  unfold processLine
  rw [hl]

/-- A list without `'\n'` is untouched by `stripFinalNewline`. -/
theorem stripFinalNewline_of_no_newline (nm : List Char)
    (h : nm.all (fun c => c ≠ '\n') = true) : stripFinalNewline nm = nm := by
  unfold stripFinalNewline
  split
  · rename_i rest heq
    exfalso
    have hmem : '\n' ∈ nm := by
      have h1 : '\n' ∈ nm.reverse := heq ▸ List.mem_cons_self _ _
      exact List.mem_reverse.mp h1
    have h2 := List.all_eq_true.mp h '\n' hmem
    simp at h2
  · rfl

/-- The most-significant-first fold of `int(·, 16)` against `Nat.ofDigits`. -/
theorem foldl_hexDigit_eq (l : List Char) (acc : Nat) :
    l.foldl (fun a c => 16 * a + hexDigitVal c) acc
      = acc * 16 ^ l.length + Nat.ofDigits 16 ((l.map hexDigitVal).reverse) := by
  induction l generalizing acc with
  | nil => simp [Nat.ofDigits_nil]
  | cons c l ih =>
    simp only [List.foldl_cons, ih, List.map_cons, List.reverse_cons, Nat.ofDigits_append,
      List.length_reverse, List.length_map, List.length_cons, Nat.ofDigits_cons,
      Nat.ofDigits_nil, pow_succ]
    ring

/-- `hexToNat` is the base-16 positional value of the digit string. -/
theorem hexToNat_eq_ofDigits (s : String) :
    hexToNat s = Nat.ofDigits 16 ((s.data.map hexDigitVal).reverse) := by
  unfold hexToNat
  rw [foldl_hexDigit_eq]
  simp

/-! ## Claims -/

/-- C1: For every output line whose tag field is `"F"`, processing that line
results in exactly one function-creation call and exactly one
symbol-definition call (a `FunctionSymbol`), both at the computed address
(base plus the parsed hex offset). -/
theorem F_line_one_create_one_function_symbol {T : Type} (dm : Demangler T)
    (base : Nat) (line a n : String) (mty : Option T) (mn : MangledName)
    (hm : rexMatch line = some ("F", a, n)) (hd : dm n = some (mty, mn)) :
    ∃ evs, processLine dm base line = some evs ∧
      evs.countP isCreateEvent = 1 ∧
      Event.createUserFunction (base + hexToNat a) ∈ evs ∧
      evs.countP isDefineEvent = 1 ∧
      (∃ sn, Event.defineUserSymbol SymbolType.FunctionSymbol
              (base + hexToNat a) sn n ∈ evs) := by
  refine ⟨_, processLine_F dm base line a n mty mn hm hd, ?_, ?_, ?_, ?_⟩ <;>
    cases mty <;> cases mn <;>
      simp [List.countP_cons, List.countP_nil, isCreateEvent, isDefineEvent]

/-- Witness for C1 at a concrete `F` line. -/
theorem F_line_one_create_one_function_symbol_witness :
    ∃ evs, processLine (fun nm => some ((none : Option Unit), MangledName.flat nm))
        0 "F 0000002a foo" = some evs ∧
      evs.countP isCreateEvent = 1 ∧
      Event.createUserFunction (0 + hexToNat "0000002a") ∈ evs ∧
      evs.countP isDefineEvent = 1 ∧
      (∃ sn, Event.defineUserSymbol SymbolType.FunctionSymbol
              (0 + hexToNat "0000002a") sn "foo" ∈ evs) :=
  F_line_one_create_one_function_symbol
    (fun nm => some (none, MangledName.flat nm)) 0 "F 0000002a foo"
    "0000002a" "foo" none (MangledName.flat "foo") rfl rfl

/-- C2: For every output line whose tag field is `"G"`, processing that line
results in exactly one symbol-definition call, of data kind (`DataSymbol`),
and no function is created for such a line: the whole trace of the line is
that single call. -/
theorem G_line_single_data_symbol {T : Type} (dm : Demangler T)
    (base : Nat) (line a n : String) (mty : Option T) (mn : MangledName)
    (hm : rexMatch line = some ("G", a, n)) (hd : dm n = some (mty, mn)) :
    ∃ sn evs, processLine dm base line = some evs ∧
      evs = [Event.defineUserSymbol SymbolType.DataSymbol (base + hexToNat a) sn n] ∧
      evs.countP isDefineEvent = 1 ∧
      evs.countP isCreateEvent = 0 := by
  refine ⟨_, _, processLine_G dm base line a n mty mn hm hd, rfl, ?_, ?_⟩ <;>
    simp [List.countP_cons, List.countP_nil, isCreateEvent, isDefineEvent]

/-- Witness for C2 at a concrete `G` line. -/
theorem G_line_single_data_symbol_witness :
    ∃ sn evs, processLine (fun nm => some ((none : Option Unit), MangledName.flat nm))
        0 "G 00000001 bar" = some evs ∧
      evs = [Event.defineUserSymbol SymbolType.DataSymbol (0 + hexToNat "00000001") sn "bar"] ∧
      evs.countP isDefineEvent = 1 ∧
      evs.countP isCreateEvent = 0 :=
  G_line_single_data_symbol
    (fun nm => some (none, MangledName.flat nm)) 0 "G 00000001 bar"
    "00000001" "bar" none (MangledName.flat "bar") rfl rfl

/-- C3: For every output line whose tag field is `"S"`, processing that line
results in exactly one comment-set call at the computed address, and the
comment content is the literal trailing text of the line (the raw third
field `n`, not the demangled name). -/
theorem S_line_single_comment {T : Type} (dm : Demangler T)
    (base : Nat) (line a n : String) (mty : Option T) (mn : MangledName)
    (hm : rexMatch line = some ("S", a, n)) (hd : dm n = some (mty, mn)) :
    processLine dm base line = some [Event.setCommentAt (base + hexToNat a) n] :=
  processLine_S dm base line a n mty mn hm hd

/-- Witness for C3 at a concrete `S` line whose demangled name differs from
the raw text: the comment still carries the raw text. -/
theorem S_line_single_comment_witness :
    processLine (fun _ => some ((none : Option Unit), MangledName.flat "demangled"))
        0 "S 00000010 hello world" =
      some [Event.setCommentAt (0 + hexToNat "00000010") "hello world"] :=
  S_line_single_comment
    (fun _ => some (none, MangledName.flat "demangled")) 0 "S 00000010 hello world"
    "00000010" "hello world" none (MangledName.flat "demangled") rfl rfl

/-- C4: For every matching line, the address used in all host API calls
equals the host view's base address plus the line's 8-digit address field
interpreted as a hexadecimal integer — exact `Nat` arithmetic, no
truncation, with `hexToNat` agreeing with the base-16 positional value. -/
theorem matched_line_calls_at_base_plus_hex {T : Type} (dm : Demangler T)
    (base : Nat) (line t a n : String) (evs : List (Event T))
    (hm : rexMatch line = some (t, a, n))
    (hp : processLine dm base line = some evs) :
    (∀ e ∈ evs, addrOf e = some (base + hexToNat a)) ∧
    hexToNat a = Nat.ofDigits 16 ((a.data.map hexDigitVal).reverse) := by
  refine ⟨?_, hexToNat_eq_ofDigits a⟩
  unfold processLine at hp
  rw [hm] at hp
  dsimp only at hp
  rcases h : dm n with _ | ⟨mty, mn⟩
  · rw [h] at hp; exact absurd hp (by simp)
  · rw [h] at hp
    dsimp only at hp
    split at hp <;> [skip; split at hp] <;> [skip; skip; split at hp]
    all_goals (injection hp with hp; subst hp)
    · cases mty <;> intro e he <;> simp [List.mem_append, List.mem_cons] at he <;>
        rcases he with rfl | rfl | rfl <;> rfl
    · intro e he; simp [List.mem_cons] at he; subst he; rfl
    · intro e he; simp [List.mem_cons] at he; subst he; rfl
    · intro e he; simp at he

/-- Witness for C4 at a concrete `G` line with address field `"000000ff"`. -/
theorem matched_line_calls_at_base_plus_hex_witness :
    (∀ e ∈ ([Event.defineUserSymbol SymbolType.DataSymbol (0 + hexToNat "000000ff")
              "glob" "glob"] : List (Event Unit)),
        addrOf e = some (0 + hexToNat "000000ff")) ∧
    hexToNat "000000ff" = Nat.ofDigits 16 (("000000ff".data.map hexDigitVal).reverse) :=
  matched_line_calls_at_base_plus_hex
    (fun nm => some ((none : Option Unit), MangledName.flat nm)) 0 "G 000000ff glob"
    "G" "000000ff" "glob"
    [Event.defineUserSymbol SymbolType.DataSymbol (0 + hexToNat "000000ff") "glob" "glob"]
    rfl rfl

/-- C5: For every matching line, if the demangling service returns the name
as an ordered sequence (list) of components, the name used in the subsequent
symbol definition is exactly the components joined with the separator `"::"`;
if it returns a flat name, that name is used unchanged. -/
theorem demangled_name_join {T : Type} (dm : Demangler T) (base : Nat)
    (line t a n : String) (mty : Option T) (mn : MangledName) (evs : List (Event T))
    (hm : rexMatch line = some (t, a, n)) (hd : dm n = some (mty, mn))
    (hp : processLine dm base line = some evs) :
    ∀ e ∈ evs, ∀ k ad sn rn, e = Event.defineUserSymbol k ad sn rn →
      sn = (match mn with
            | MangledName.parts l => String.intercalate "::" l
            | MangledName.flat s => s) := by
  unfold processLine at hp
  rw [hm] at hp
  dsimp only at hp
  simp only [hd] at hp
  split at hp <;> [skip; split at hp] <;> [skip; skip; split at hp]
  all_goals (injection hp with hp; subst hp)
  · cases mty <;> intro e he <;> simp [List.mem_append, List.mem_cons] at he <;>
      rcases he with rfl | rfl | rfl <;> intro k ad sn rn hee <;> cases hee <;>
        (cases mn <;> rfl)
  · intro e he; simp [List.mem_cons] at he; subst he
    intro k ad sn rn hee; cases hee; cases mn <;> rfl
  · intro e he; simp [List.mem_cons] at he; subst he
    intro k ad sn rn hee; cases hee
  · intro e he; simp at he

/-- Witness for C5 on an `F` line whose demangler returns the component list
`["a", "b"]`: the defined symbol's name is the `"::"`-join. -/
theorem demangled_name_join_witness :
    "a::b" = (match MangledName.parts ["a", "b"] with
              | MangledName.parts l => String.intercalate "::" l
              | MangledName.flat s => s) :=
  demangled_name_join
    (fun _ => some ((none : Option Unit), MangledName.parts ["a", "b"]))
    0 "F 00000001 mangled" "F" "00000001" "mangled" none (MangledName.parts ["a", "b"])
    [Event.createUserFunction (0 + hexToNat "00000001"),
     Event.defineUserSymbol SymbolType.FunctionSymbol (0 + hexToNat "00000001")
       "a::b" "mangled"]
    rfl rfl rfl
    (Event.defineUserSymbol SymbolType.FunctionSymbol (0 + hexToNat "00000001")
      "a::b" "mangled")
    (List.mem_cons_of_mem _ (List.mem_cons_self _ _))
    SymbolType.FunctionSymbol (0 + hexToNat "00000001") "a::b" "mangled" rfl

/-- C6 counterexample: the address field of the regex accepts only lowercase
hex digits, so a line whose 8-digit hexadecimal address contains an uppercase
digit (`A`) does not match, and processing it crashes instead of yielding a
triple: the claim "this holds for any 8 hexadecimal digits" fails. -/
theorem uppercase_hex_line_rejected :
    rexMatch "F 0000000A xyz" = none ∧
    processLine (fun nm => some ((none : Option Unit), MangledName.flat nm))
      0 "F 0000000A xyz" = none :=
  ⟨rfl, rfl⟩

/-- C6 (amended): every line of the form `<tag> <8-lowercase-hex-digit-address>
<name>` with tag in `{F, G, S}` (and the name free of newlines, as regex `.`
requires) yields exactly the one `(tag, address, name)` triple that is then
dispatched. -/
theorem pattern_line_yields_triple (t : Char) (ad nm : List Char)
    (ht : isTagChar t = true) (hlen : ad.length = 8)
    (hhex : ad.all isHexLower = true) (hnm : nm.all (fun c => c ≠ '\n') = true) :
    rexMatch (String.mk (t :: ' ' :: (ad ++ ' ' :: nm)))
      = some (String.mk [t], String.mk ad, String.mk nm) := by
  unfold rexMatch
  dsimp only
  have htake : (ad ++ ' ' :: nm).take 8 = ad := by
    rw [← hlen]; exact List.take_left ad (' ' :: nm)
  have hdrop : (ad ++ ' ' :: nm).drop 8 = ' ' :: nm := by
    rw [← hlen]; exact List.drop_left ad (' ' :: nm)
  rw [ht, htake, hdrop, hlen, hhex]
  dsimp only
  rw [stripFinalNewline_of_no_newline nm hnm, hnm]
  simp

/-- Witness for the amended C6 at tag `G`, address `deadbeef`, name `x`. -/
theorem pattern_line_yields_triple_witness :
    rexMatch (String.mk ('G' :: ' ' :: ("deadbeef".data ++ ' ' :: "x".data)))
      = some (String.mk ['G'], String.mk "deadbeef".data, String.mk "x".data) :=
  pattern_line_yields_triple 'G' "deadbeef".data "x".data rfl rfl rfl rfl

/-- C7: if a line fails to match the three-field pattern, the whole loop
aborts there: the trace is exactly the (successful) prefix's trace — the bad
line contributes no host call, no later line is processed, whatever follows —
and the run is flagged as failed. -/
theorem unmatched_line_aborts {T : Type} (dm : Demangler T) (base : Nat)
    (pre post : List String) (l : String) (hl : rexMatch l = none) :
    processLines dm base (pre ++ l :: post) = ((processLines dm base pre).1, false) := by
  induction pre with
  | nil =>
    simp only [List.nil_append, processLines, processLine_rexFail dm base l hl]
  | cons p ps ih =>
    simp only [List.cons_append, processLines]
    cases hpp : processLine dm base p with
    | none => rfl
    | some evs =>
      dsimp only
      simp only [List.append_eq]
      rw [ih]

/-- Witness for C7: a malformed middle line stops processing before the
trailing `S` line, keeping only the leading `G` line's trace. -/
theorem unmatched_line_aborts_witness :
    processLines (fun nm => some ((none : Option Unit), MangledName.flat nm)) 0
        (["G 00000001 a"] ++ "bad" :: ["S 00000002 b"]) =
      ((processLines (fun nm => some ((none : Option Unit), MangledName.flat nm)) 0
          ["G 00000001 a"]).1, false) :=
  unmatched_line_aborts (fun nm => some (none, MangledName.flat nm)) 0
    ["G 00000001 a"] ["S 00000002 b"] "bad" rfl

/-- C8: if the file dialog returns no file (cancelled, and likewise Python's
falsy empty string), the command performs no processing at all: the trace is
empty — no subprocess spawn, no host-model mutation. -/
theorem cancelled_dialog_no_effect {T : Type} (dm : Demangler T) (base : Nat)
    (dbgparse : String → String) :
    load_dbg_file dm base none dbgparse = ([], true) ∧
    load_dbg_file dm base (some "") dbgparse = ([], true) :=
  ⟨rfl, rfl⟩

/-- C9: on an `F` line the function type is assigned exactly when the
demangler returned a non-`None` descriptor (and then with that descriptor at
the computed address); when it returned `None` there is no type assignment,
while the function creation and symbol definition still occur either way. -/
theorem F_line_type_set_iff_descriptor {T : Type} (dm : Demangler T)
    (base : Nat) (line a n : String) (mty : Option T) (mn : MangledName)
    (hm : rexMatch line = some ("F", a, n)) (hd : dm n = some (mty, mn)) :
    ∃ evs, processLine dm base line = some evs ∧
      evs.countP isCreateEvent = 1 ∧ evs.countP isDefineEvent = 1 ∧
      (match mty with
       | some ty => evs.countP isSetTypeEvent = 1 ∧
           Event.setFunctionType (base + hexToNat a) ty ∈ evs
       | none => evs.countP isSetTypeEvent = 0) := by
  refine ⟨_, processLine_F dm base line a n mty mn hm hd, ?_, ?_, ?_⟩ <;>
    cases mty <;> cases mn <;>
      simp [List.countP_cons, List.countP_nil, isCreateEvent, isDefineEvent, isSetTypeEvent]

/-- Witness for C9 with a demangler returning a (unit) type descriptor. -/
theorem F_line_type_set_iff_descriptor_witness :
    ∃ evs, processLine (fun nm => some (some (), MangledName.flat nm)) 0 "F 00000003 fn"
        = some evs ∧
      evs.countP isCreateEvent = 1 ∧ evs.countP isDefineEvent = 1 ∧
      (match (some () : Option Unit) with
       | some ty => evs.countP isSetTypeEvent = 1 ∧
           Event.setFunctionType (0 + hexToNat "00000003") ty ∈ evs
       | none => evs.countP isSetTypeEvent = 0) :=
  F_line_type_set_iff_descriptor (fun nm => some (some (), MangledName.flat nm)) 0
    "F 00000003 fn" "00000003" "fn" (some ()) (MangledName.flat "fn") rfl rfl

/-- C10: the demangling service is consulted on every matching line before
the tag is even inspected — `S` lines included — so a demangling failure
aborts the iteration with no host call for any tag. -/
theorem demangle_failure_aborts_any_tag {T : Type} (dm : Demangler T)
    (base : Nat) (line t a n : String)
    (hm : rexMatch line = some (t, a, n)) (hd : dm n = none) :
    processLine dm base line = none := by
  unfold processLine
  rw [hm]
  dsimp only
  rw [hd]

/-- Witness for C10 on a comment-only (`S`) line with a failing demangler. -/
theorem demangle_failure_aborts_any_tag_witness :
    processLine (fun _ => (none : Option (Option Unit × MangledName))) 0
      "S 00000010 hello" = none :=
  demangle_failure_aborts_any_tag (fun _ => none) 0 "S 00000010 hello"
    "S" "00000010" "hello" rfl rfl

end CoffNm
